import Mathlib

/-!
Verification of the DeskJarvis supervisor layer (src/src-tauri/src/main.rs).

The Rust program supervises a persistent Python worker process: it launches
the worker and waits for a readiness handshake, sends newline-delimited JSON
commands, drives a read loop that classifies incoming events, detects crashes
(EOF before a terminal `result` event), schedules a deferred background
restart, and falls back to a one-shot process per request when the persistent
path fails.

We shallowly embed the decision logic of that file: JSON values are modelled
by an inductive `Json` (numeric literals are modelled as integers; the claims
under verification do not involve fractional numbers), byte streams are
modelled as lists of read outcomes, and the asynchronous effects (process
spawning, window emission, lock acquisition) are made explicit as data
returned by the embedded functions (lists of forwarded events, boolean flags
for scheduled background restarts, explicit worker-slot states).
-/

/-- JSON values, as produced by the serde_json parser used throughout
`main.rs`.  Objects keep their fields as an ordered association list. -/
inductive Json where
  | null : Json
  | bool (b : Bool) : Json
  | num (n : Int) : Json
  | str (s : String) : Json
  | arr (elems : List Json) : Json
  | obj (fields : List (String × Json)) : Json
deriving Repr

/-- Result of `steps` in the Rust `TaskResult`: `StepResult { step: Value,
result: Option<Value> }` (main.rs lines 26-30). -/
structure StepResult where
  step : Json
  result : Option Json
deriving Repr

/-- The Rust `TaskResult { success: bool, message: String, steps:
Vec<StepResult>, user_instruction: String }` (main.rs lines 17-23). -/
structure TaskResult where
  success : Bool
  message : String
  steps : List StepResult
  user_instruction : String
deriving Repr

/-! ## A small executable JSON parser

This models `serde_json::from_str::<serde_json::Value>`: leading and trailing
whitespace is tolerated, and the parse fails unless the whole input is one
JSON value.  Recursion is bounded by an explicit fuel argument (the callers
pass `length + 2`, which is more than the maximal nesting depth). -/

/-- JSON insignificant whitespace characters. -/
def jsonWs (c : Char) : Bool :=
  c = ' ' || c = '\t' || c = '\n' || c = '\r'

/-- Drop leading JSON whitespace. -/
def skipWs (l : List Char) : List Char :=
  l.dropWhile jsonWs

/-- Parse the value of a hexadecimal digit. -/
def hexDigit (c : Char) : Option Nat :=
  if '0' ≤ c ∧ c ≤ '9' then some (c.toNat - '0'.toNat)
  else if 'a' ≤ c ∧ c ≤ 'f' then some (c.toNat - 'a'.toNat + 10)
  else if 'A' ≤ c ∧ c ≤ 'F' then some (c.toNat - 'A'.toNat + 10)
  else none

/-- Parse the body of a JSON string literal (the opening quote already
consumed), handling the standard escape sequences. -/
def parseStringBody : Nat → List Char → Option (List Char × List Char)
  | 0, _ => none
  | _, [] => none
  | fuel + 1, c :: rest =>
    if c = '"' then some ([], rest)
    else if c = '\\' then
      match rest with
      | [] => none
      | e :: rest2 =>
        if e = 'u' then
          match rest2 with
          | h1 :: h2 :: h3 :: h4 :: rest3 =>
            match hexDigit h1, hexDigit h2, hexDigit h3, hexDigit h4 with
            | some d1, some d2, some d3, some d4 =>
              match parseStringBody fuel rest3 with
              | some (tail, rem) =>
                some (Char.ofNat (((d1 * 16 + d2) * 16 + d3) * 16 + d4) :: tail, rem)
              | none => none
            | _, _, _, _ => none
          | _ => none
        else
          match
            (if e = '"' then some '"'
             else if e = '\\' then some '\\'
             else if e = '/' then some '/'
             else if e = 'n' then some '\n'
             else if e = 't' then some '\t'
             else if e = 'r' then some '\r'
             else if e = 'b' then some (Char.ofNat 8)
             else if e = 'f' then some (Char.ofNat 12)
             else none) with
          | some d =>
            match parseStringBody fuel rest2 with
            | some (tail, rem) => some (d :: tail, rem)
            | none => none
          | none => none
    else
      match parseStringBody fuel rest with
      | some (tail, rem) => some (c :: tail, rem)
      | none => none

/-- Decimal digit test. -/
def isDigitChar (c : Char) : Bool :=
  '0' ≤ c && c ≤ '9'

/-- Read a nonempty run of decimal digits as a natural number. -/
def parseDigits (l : List Char) : Option (Nat × List Char) :=
  let digits := l.takeWhile isDigitChar
  if digits.isEmpty then none
  else some (digits.foldl (fun acc c => acc * 10 + (c.toNat - '0'.toNat)) 0,
             l.dropWhile isDigitChar)

/-- Parse a JSON integer literal (optional minus sign followed by digits). -/
def parseIntLit (l : List Char) : Option (Int × List Char) :=
  match l with
  | '-' :: rest =>
    match parseDigits rest with
    | some (n, rem) => some (-(n : Int), rem)
    | none => none
  | _ =>
    match parseDigits l with
    | some (n, rem) => some ((n : Int), rem)
    | none => none

mutual

/-- Parse one JSON value from the front of the input. -/
def parseValue : Nat → List Char → Option (Json × List Char)
  | 0, _ => none
  | fuel + 1, l =>
    match skipWs l with
    | [] => none
    | c :: rest =>
      if c = 'n' then
        match rest with
        | 'u' :: 'l' :: 'l' :: rem => some (Json.null, rem)
        | _ => none
      else if c = 't' then
        match rest with
        | 'r' :: 'u' :: 'e' :: rem => some (Json.bool true, rem)
        | _ => none
      else if c = 'f' then
        match rest with
        | 'a' :: 'l' :: 's' :: 'e' :: rem => some (Json.bool false, rem)
        | _ => none
      else if c = '"' then
        match parseStringBody (fuel + 1) rest with
        | some (chars, rem) => some (Json.str (String.mk chars), rem)
        | none => none
      else if c = '[' then
        match skipWs rest with
        | ']' :: rem => some (Json.arr [], rem)
        | _ =>
          match parseElems fuel rest with
          | some (elems, rem) => some (Json.arr elems, rem)
          | none => none
      else if c = '\x7b' then
        match skipWs rest with
        | '\x7d' :: rem => some (Json.obj [], rem)
        | _ =>
          match parseMembers fuel rest with
          | some (fields, rem) => some (Json.obj fields, rem)
          | none => none
      else
        match parseIntLit (c :: rest) with
        | some (n, rem) => some (Json.num n, rem)
        | none => none

/-- Parse a nonempty comma-separated list of array elements followed by a
closing bracket. -/
def parseElems : Nat → List Char → Option (List Json × List Char)
  | 0, _ => none
  | fuel + 1, l =>
    match parseValue fuel l with
    | none => none
    | some (v, rest) =>
      match skipWs rest with
      | ',' :: rest2 =>
        match parseElems fuel rest2 with
        | some (vs, rem) => some (v :: vs, rem)
        | none => none
      | ']' :: rem => some ([v], rem)
      | _ => none

/-- Parse a nonempty comma-separated list of object members followed by a
closing brace. -/
def parseMembers : Nat → List Char → Option (List (String × Json) × List Char)
  | 0, _ => none
  | fuel + 1, l =>
    match skipWs l with
    | '"' :: rest =>
      match parseStringBody (fuel + 1) rest with
      | none => none
      | some (key, rest2) =>
        match skipWs rest2 with
        | ':' :: rest3 =>
          match parseValue fuel rest3 with
          | none => none
          | some (v, rest4) =>
            match skipWs rest4 with
            | ',' :: rest5 =>
              match parseMembers fuel rest5 with
              | some (fields, rem) => some ((String.mk key, v) :: fields, rem)
              | none => none
            | '\x7d' :: rem => some ([(String.mk key, v)], rem)
            | _ => none
        | _ => none
    | _ => none

end

/-- Model of `serde_json::from_str::<serde_json::Value>`: parse one JSON
value and require that only whitespace remains. -/
def parseJson (s : String) : Option Json :=
  match parseValue (s.length + 2) s.data with
  | some (j, rest) => if (skipWs rest).isEmpty then some j else none
  | none => none

/-! ## Serde-style codecs for `TaskResult` and `StepResult`

These model the derived `Serialize`/`Deserialize` implementations used by
`main.rs`: field names are taken from the struct declarations, `Vec` maps to
a JSON array, and `Option` maps to JSON null when absent.  On the decoding
side, serde decodes JSON null into `None` for an `Option` field and also
treats a missing `Option` field as `None`. -/

/-- Look up a field of a JSON object (the `serde_json::Value::get` used on
every event).  Non-objects have no fields. -/
def jsonGet (j : Json) (key : String) : Option Json :=
  match j with
  | Json.obj fields => fields.lookup key
  | _ => none

/-- The `type` tag of an event:
`event.get("type").and_then(|v| v.as_str()).unwrap_or("")`. -/
def jsonTypeTag (j : Json) : String :=
  match jsonGet j "type" with
  | some (Json.str s) => s
  | _ => ""

/-- Derived serde `Serialize` for `StepResult`: the optional `result`
serializes as JSON null when absent. -/
def stepResultToJson (s : StepResult) : Json :=
  Json.obj [("step", s.step),
            ("result", match s.result with
              | none => Json.null
              | some v => v)]

/-- Derived serde `Serialize` for `TaskResult`. -/
def taskResultToJson (t : TaskResult) : Json :=
  Json.obj [("success", Json.bool t.success),
            ("message", Json.str t.message),
            ("steps", Json.arr (t.steps.map stepResultToJson)),
            ("user_instruction", Json.str t.user_instruction)]

/-- Derived serde `Deserialize` for `StepResult`: `step` is required, while
the `Option` field `result` decodes both JSON null and a missing field to
`None`. -/
def stepResultFromJson (j : Json) : Except String StepResult :=
  match j with
  | Json.obj _ =>
    match jsonGet j "step" with
    | none => Except.error "missing field step"
    | some stepV =>
      match jsonGet j "result" with
      | none => Except.ok ⟨stepV, none⟩
      | some Json.null => Except.ok ⟨stepV, none⟩
      | some v => Except.ok ⟨stepV, some v⟩
  | _ => Except.error "invalid type: expected struct StepResult"

/-- Decode a JSON array of step results, failing on the first bad element. -/
def stepResultsFromJson : List Json → Except String (List StepResult)
  | [] => Except.ok []
  | j :: rest =>
    match stepResultFromJson j with
    | Except.error e => Except.error e
    | Except.ok s =>
      match stepResultsFromJson rest with
      | Except.error e => Except.error e
      | Except.ok ss => Except.ok (s :: ss)

/-- Derived serde `Deserialize` for `TaskResult`: all four fields are
required and type-checked. -/
def taskResultFromJson (j : Json) : Except String TaskResult :=
  match j with
  | Json.obj _ =>
    match jsonGet j "success", jsonGet j "message",
          jsonGet j "steps", jsonGet j "user_instruction" with
    | some (Json.bool b), some (Json.str m), some (Json.arr js), some (Json.str u) =>
      match stepResultsFromJson js with
      | Except.ok ss => Except.ok ⟨b, m, ss, u⟩
      | Except.error e => Except.error e
    | _, _, _, _ => Except.error "invalid fields for struct TaskResult"
  | _ => Except.error "invalid type: expected struct TaskResult"

/-- Model of `serde_json::from_str::<TaskResult>`. -/
def taskResultFromStrE (s : String) : Except String TaskResult :=
  match parseJson s with
  | some j => taskResultFromJson j
  | none => Except.error "invalid JSON"

/-- Whether a line parses directly as a `TaskResult` (used by the one-shot
executor's per-line opportunistic parse). -/
def taskResultFromStr (s : String) : Option TaskResult :=
  (taskResultFromStrE s).toOption

/-! ## The JSON-extraction helper -/

/-- Model of Rust `str::trim` (whitespace at both ends removed). -/
def trimStr (s : String) : String :=
  String.mk (((s.data.dropWhile jsonWs).reverse.dropWhile jsonWs).reverse)

/-- Index of the last occurrence of a character (Rust `str::rfind`). -/
def lastIdxOf (l : List Char) (c : Char) : Option Nat :=
  match l.reverse.findIdx? (· = c) with
  | some r => some (l.length - 1 - r)
  | none => none

/-- Rust `extract_json_from_output` (main.rs lines 432-443): the inclusive
span from the first `\x7b` to the last `\x7d`, required to be in the right
order, otherwise an error carrying the raw output. -/
def extract_json_from_output (output : String) : Except String String :=
  match output.data.findIdx? (· = '{'), lastIdxOf output.data '}' with
  | some s, some e =>
    if e > s then Except.ok (String.mk ((output.data.drop s).take (e - s + 1)))
    else Except.error ("未找到有效的 JSON 输出。输出内容: " ++ output)
  | some _, none => Except.error ("未找到有效的 JSON 输出。输出内容: " ++ output)
  | none, _ => Except.error ("未找到有效的 JSON 输出。输出内容: " ++ output)

/-! ## The persistent-path request executor -/

/-- One read on a buffered line reader: a line, end of stream (zero bytes),
or a read error. -/
inductive ReadResult where
  | line (s : String) : ReadResult
  | eof : ReadResult
  | fail (e : String) : ReadResult

/-- Effect of one stdout line on the read loop. -/
inductive LoopStep where
  | skip : LoopStep
  | progress (event : Json) : LoopStep
  | terminate (res : Except String TaskResult) : LoopStep

/-- Classification of one stdout line by the body of the read loop in
`execute_via_server` (main.rs lines 263-296): empty and non-JSON lines are
skipped, control tags are skipped, `result` terminates the loop with the
decoded payload (or a protocol error when `data` is missing), and every
other event is forwarded as progress. -/
def lineOutcome (s : String) : LoopStep :=
  let trimmed := trimStr s
  if trimmed = "" then LoopStep.skip
  else
    match parseJson trimmed with
    | none => LoopStep.skip
    | some event =>
      let ty := jsonTypeTag event
      if ty = "ready" || ty = "pong" || ty = "shutdown_ack" then LoopStep.skip
      else if ty = "result" then
        match jsonGet event "data" with
        | some data =>
          LoopStep.terminate ((taskResultFromJson data).mapError
            (fun e => "解析 TaskResult 失败: " ++ e))
        | none => LoopStep.terminate (Except.error "result 事件缺少 data 字段")
      else LoopStep.progress event

/-- The read loop of `execute_via_server` (main.rs lines 250-297) over a
prefix of the stream: returns the forwarded progress events in order,
together with the outcome; `none` means the loop consumed every supplied
read and is still blocked waiting for the next line. -/
def runReadLoop : List ReadResult → List Json → List Json × Option (Except String TaskResult)
  | [], acc => (acc, none)
  | ReadResult.fail e :: _, acc => (acc, some (Except.error ("读取响应失败: " ++ e)))
  | ReadResult.eof :: _, acc => (acc, some (Except.error "PROCESS_CRASHED"))
  | ReadResult.line s :: rest, acc =>
    match lineOutcome s with
    | LoopStep.skip => runReadLoop rest acc
    | LoopStep.progress j => runReadLoop rest (acc ++ [j])
    | LoopStep.terminate res => (acc, some res)

/-- `execute_via_server` (main.rs lines 220-298): the command write is
modelled by its possible write and flush errors, after which the read loop
runs. -/
def execute_via_server (writeErr flushErr : Option String) (reads : List ReadResult) :
    List Json × Option (Except String TaskResult) :=
  match writeErr with
  | some e => ([], some (Except.error ("写入命令失败: " ++ e)))
  | none =>
    match flushErr with
    | some e => ([], some (Except.error ("刷新 stdin 失败: " ++ e)))
    | none => runReadLoop reads []

/-! ## Launch readiness and liveness -/

/-- `wait_for_ready` (main.rs lines 132-163): read lines until a `ready`
event (success) or an `error` event (failure with the event's message,
defaulting when absent); zero bytes read fails with the exited-before-ready
message; non-JSON and other events are skipped. -/
def wait_for_ready : List ReadResult → Option (Except String Unit)
  | [] => none
  | ReadResult.fail e :: _ => some (Except.error ("读取 ready 信号失败: " ++ e))
  | ReadResult.eof :: _ => some (Except.error "Python 服务启动后立即退出")
  | ReadResult.line s :: rest =>
    match parseJson (trimStr s) with
    | none => wait_for_ready rest
    | some event =>
      let ty := jsonTypeTag event
      if ty = "ready" then some (Except.ok ())
      else if ty = "error" then
        some (Except.error (match jsonGet event "message" with
          | some (Json.str m) => m
          | _ => "未知错误"))
      else wait_for_ready rest

/-- Readiness phase of `launch_python_server` (main.rs lines 108-128): the
30-second timeout is modelled by the boolean `timedOut`; otherwise the
`wait_for_ready` outcome is wrapped as in the `match ready_result` arms. -/
def launch_ready_result (timedOut : Bool) (reads : List ReadResult) :
    Option (Except String Unit) :=
  if timedOut then some (Except.error "Python 服务启动超时(30s)")
  else
    match wait_for_ready reads with
    | some (Except.ok ()) => some (Except.ok ())
    | some (Except.error e) => some (Except.error ("Python 服务初始化失败: " ++ e))
    | none => none

/-- Result of the non-blocking liveness poll `child.try_wait()`:
already exited, still running, or the poll itself failed. -/
inductive PollStatus where
  | exited : PollStatus
  | running : PollStatus
  | pollErr : PollStatus

/-- `ensure_server_alive` (main.rs lines 166-193), parametric in the worker
handle type: decide whether a restart is needed from the slot and the poll,
clear the slot, and launch (the launch outcome is an explicit input).
Returns the slot contents after the call along with the call's result. -/
def ensure_server_alive {α : Type} (slot : Option α) (poll : α → PollStatus)
    (launch : Except String α) : Option α × Except String Unit :=
  let needsRestart :=
    match slot with
    | some s =>
      match poll s with
      | PollStatus.exited => true
      | PollStatus.running => false
      | PollStatus.pollErr => true
    | none => true
  if needsRestart then
    match launch with
    | Except.ok ns => (some ns, Except.ok ())
    | Except.error e => (none, Except.error e)
  else (slot, Except.ok ())

/-! ## The one-shot fallback executor -/

/-- Progress forwarding for one stdout line in `execute_oneshot` (main.rs
lines 336-344): the raw line is parsed as JSON and forwarded only when its
type tag is non-empty. -/
def oneshotForward (line : String) : Option Json :=
  match parseJson line with
  | some event => if jsonTypeTag event ≠ "" then some event else none
  | none => none

/-- The per-line opportunistic `TaskResult` parse of `execute_oneshot`
(main.rs lines 346-348): the last successful parse wins. -/
def oneshotFinalCandidate (lines : List String) : Option TaskResult :=
  lines.foldl (fun acc l =>
    match taskResultFromStr l with
    | some r => some r
    | none => acc) none

/-- Result computation of `execute_oneshot` (main.rs lines 328-375) as a
function of the stdout lines: the last line that parsed directly as a
`TaskResult` wins; otherwise the brace span extracted from the joined
output is parsed; otherwise the call fails with a diagnostic that carries
the raw output. -/
def execute_oneshot (lines : List String) : Except String TaskResult :=
  match oneshotFinalCandidate lines with
  | some r => Except.ok r
  | none =>
    let stdout_content := String.intercalate "\n" lines
    match extract_json_from_output stdout_content with
    | Except.error e => Except.error e
    | Except.ok json_str =>
      match taskResultFromStrE json_str with
      | Except.ok r => Except.ok r
      | Except.error e =>
        Except.error ("解析 JSON 失败: " ++ e ++ "。原始输出: " ++ stdout_content)

/-! ## The main entry point -/

/-- Observable outcome of one `execute_task` call: the returned result, the
worker-slot state after the persistent attempt, whether a deferred
background restart was scheduled, and whether the one-shot fallback ran. -/
structure ExecTaskOutcome where
  result : Except String TaskResult
  slotCleared : Bool
  restartScheduled : Bool
  usedFallback : Bool

/-- Dispatch structure of `execute_task` (main.rs lines 395-427): an
ensure-alive failure falls back to the one-shot path with no background
restart; a persistent-path success is returned as is; a persistent-path
error clears the slot, schedules the background restart, and falls back —
the `PROCESS_CRASHED` sentinel and every other error are handled by the two
distinct match arms, which perform the same recovery. -/
def execute_task (ensureRes : Except String Unit)
    (viaServer : Except String TaskResult)
    (oneshot : Except String TaskResult) : ExecTaskOutcome :=
  match ensureRes with
  | Except.error _ => ⟨oneshot, true, false, true⟩
  | Except.ok () =>
    match viaServer with
    | Except.ok r => ⟨Except.ok r, false, false, false⟩
    | Except.error e =>
      if e = "PROCESS_CRASHED" then ⟨oneshot, true, true, true⟩
      else ⟨oneshot, true, true, true⟩

/-! ## Supporting lemmas -/

/-- Whether a loop step terminates the read loop. -/
def stepIsTerminal : LoopStep → Bool
  | LoopStep.terminate _ => true
  | _ => false

/-- A successful `findIdx?` points at an element satisfying the predicate. -/
theorem findIdx?_getElem (p : Char → Bool) (l : List Char) :
    ∀ i, List.findIdx? p l = some i → ∃ c, l[i]? = some c ∧ p c = true := by
  induction l with
  | nil => intro i h; simp [List.findIdx?] at h
  | cons x xs ih =>
    intro i h
    rw [List.findIdx?_cons] at h
    by_cases hx : p x = true
    · simp [hx] at h
      subst h
      exact ⟨x, by simp, hx⟩
    · simp [hx] at h
      obtain ⟨j, hj, hji⟩ := h
      obtain ⟨c, hc, hpc⟩ := ih j hj
      subst hji
      exact ⟨c, by simpa using hc, hpc⟩

/-- `findIdx?` finds an index at or before any satisfying element. -/
theorem findIdx?_le_of_getElem (p : Char → Bool) (l : List Char) :
    ∀ k c, l[k]? = some c → p c = true → ∃ i, List.findIdx? p l = some i ∧ i ≤ k := by
  induction l with
  | nil => intro k c h _; simp at h
  | cons x xs ih =>
    intro k c hk hp
    rw [List.findIdx?_cons]
    by_cases hx : p x = true
    · exact ⟨0, by simp [hx], Nat.zero_le _⟩
    · cases k with
      | zero =>
        simp at hk
        subst hk
        exact absurd hp hx
      | succ k2 =>
        simp at hk
        obtain ⟨i, hi, hik⟩ := ih k2 c hk hp
        refine ⟨i + 1, ?_, Nat.succ_le_succ hik⟩
        simp [hx, hi]

/-- When the prefix has no hit and the next element is one, `findIdx?`
returns the length of the prefix. -/
theorem findIdx?_append_cons (p : Char → Bool) (a t : List Char) (x : Char)
    (ha : List.findIdx? p a = none) (hx : p x = true) :
    List.findIdx? p (a ++ x :: t) = some a.length := by
  rw [List.findIdx?_append, ha]
  simp [List.findIdx?_cons, hx]

/-- A successful `lastIdxOf` points at the character. -/
theorem lastIdxOf_getElem (l : List Char) (c : Char) (e : Nat)
    (h : lastIdxOf l c = some e) : l[e]? = some c := by
  unfold lastIdxOf at h
  cases hr : List.findIdx? (· = c) l.reverse with
  | none => rw [hr] at h; cases h
  | some r =>
    rw [hr] at h
    injection h with he
    obtain ⟨d, hd, hpd⟩ := findIdx?_getElem _ _ r hr
    have hrl : r < l.length := by
      have := (List.getElem?_eq_some.mp hd).1
      simpa using this
    rw [List.getElem?_reverse (by simpa using hrl)] at hd
    have hdc : d = c := by simpa using hpd
    rw [← he, ← hdc]
    exact hd

/-- `lastIdxOf` finds an index at or after any occurrence. -/
theorem lastIdxOf_ge (l : List Char) (c : Char) (j : Nat) (h : l[j]? = some c) :
    ∃ e, lastIdxOf l c = some e ∧ j ≤ e := by
  have hj : j < l.length := (List.getElem?_eq_some.mp h).1
  have hrev : l.reverse[l.length - 1 - j]? = some c := by
    have harith : l.length - 1 - (l.length - 1 - j) = j := by omega
    rw [List.getElem?_reverse (by omega), harith]
    exact h
  obtain ⟨r, hr, hrle⟩ :=
    findIdx?_le_of_getElem (· = c) l.reverse (l.length - 1 - j) c hrev (by simp)
  refine ⟨l.length - 1 - r, ?_, by omega⟩
  unfold lastIdxOf
  rw [hr]

/-- Two strings differ when they disagree at an index that lies inside the
left part of an appended string. -/
theorem ne_append_right_of_getElem (s q : String) (k : Nat) (c1 c2 : Char)
    (h1 : s.data[k]? = some c1) (h2 : q.data[k]? = some c2) (hne : c1 ≠ c2) :
    ∀ m : String, s ≠ q ++ m := by
  intro m hEq
  have hk : k < q.data.length := (List.getElem?_eq_some.mp h2).1
  rw [hEq, String.data_append, List.getElem?_append_left hk, h2] at h1
  injection h1 with h1
  exact hne h1.symm

/-- Lines none of which parse as a `TaskResult` leave the one-shot
executor's final-result accumulator unchanged. -/
theorem foldl_last_parse_none (ls : List String) (acc : Option TaskResult)
    (h : ∀ l ∈ ls, taskResultFromStr l = none) :
    ls.foldl (fun acc l =>
      match taskResultFromStr l with
      | some r => some r
      | none => acc) acc = acc := by
  induction ls generalizing acc with
  | nil => rfl
  | cons x xs ih =>
    have hx : taskResultFromStr x = none := h x (List.mem_cons_self x xs)
    simp only [List.foldl_cons, hx]
    exact ih acc (fun l hl => h l (List.mem_cons_of_mem _ hl))

/-- The last line that parses as a `TaskResult` wins the accumulator. -/
theorem oneshotFinalCandidate_append_some (pre post : List String) (l : String)
    (r : TaskResult) (hl : taskResultFromStr l = some r)
    (hpost : ∀ x ∈ post, taskResultFromStr x = none) :
    oneshotFinalCandidate (pre ++ l :: post) = some r := by
  unfold oneshotFinalCandidate
  rw [List.foldl_append]
  simp only [List.foldl_cons, hl]
  exact foldl_last_parse_none post _ hpost

/-- With no per-line parse at all, the accumulator stays empty. -/
theorem oneshotFinalCandidate_none (lines : List String)
    (h : ∀ l ∈ lines, taskResultFromStr l = none) :
    oneshotFinalCandidate lines = none :=
  foldl_last_parse_none lines none h

/-- When extraction fails its error carries the raw output. -/
theorem extract_error_eq (s : String)
    (h : (extract_json_from_output s).isOk = false) :
    extract_json_from_output s =
      Except.error ("未找到有效的 JSON 输出。输出内容: " ++ s) := by
  unfold extract_json_from_output at h ⊢
  cases h1 : List.findIdx? (· = '{') s.data with
  | none => simp [h1]
  | some s0 =>
    cases h2 : lastIdxOf s.data '}' with
    | none => simp [h1, h2]
    | some e0 =>
      rw [h1, h2] at h
      by_cases hgt : e0 > s0
      · simp [hgt, Except.isOk, Except.toBool] at h
      · simp [hgt]

/-- Serde round-trip on the step list, excluding explicit null payloads in
the optional field. -/
theorem stepResults_roundtrip (steps : List StepResult)
    (h : ∀ s ∈ steps, s.result ≠ some Json.null) :
    stepResultsFromJson (steps.map stepResultToJson) = Except.ok steps := by
  induction steps with
  | nil => rfl
  | cons s rest ih =>
    have hs : s.result ≠ some Json.null := h s (List.mem_cons_self _ _)
    have hstep : stepResultFromJson (stepResultToJson s) = Except.ok s := by
      obtain ⟨stepV, resultV⟩ := s
      cases resultV with
      | none => rfl
      | some v =>
        cases v with
        | null => exact absurd rfl hs
        | bool b => rfl
        | num n => rfl
        | str s2 => rfl
        | arr es => rfl
        | obj fs => rfl
    have hrest := ih (fun x hx => h x (List.mem_cons_of_mem _ hx))
    simp only [List.map_cons, stepResultsFromJson, hstep, hrest]

/-- A read stream of non-terminating lines followed by EOF drives the read
loop to the crash sentinel. -/
theorem runReadLoop_eof (pre : List ReadResult) (acc : List Json)
    (h : ∀ r ∈ pre, ∃ s, r = ReadResult.line s ∧ stepIsTerminal (lineOutcome s) = false) :
    (runReadLoop (pre ++ [ReadResult.eof]) acc).2 =
      some (Except.error "PROCESS_CRASHED") := by
  induction pre generalizing acc with
  | nil => rfl
  | cons r rest ih =>
    obtain ⟨s, rfl, hs⟩ := h r (List.mem_cons_self _ _)
    have hrest := fun x hx => h x (List.mem_cons_of_mem _ hx)
    rw [List.cons_append]
    cases hline : lineOutcome s with
    | skip =>
      simp only [runReadLoop, hline]
      exact ih acc hrest
    | progress j =>
      simp only [runReadLoop, hline]
      exact ih (acc ++ [j]) hrest
    | terminate res =>
      rw [hline] at hs
      simp [stepIsTerminal] at hs

/-! ## Claims -/

/-- C7: for every input string containing a `\x7b` and a later `\x7d`
(decomposed as a prefix without `\x7b`, the first `\x7b`, a middle, the last
`\x7d`, and a suffix without `\x7d`), the JSON-extraction helper returns the
substring from the first `\x7b` to the last `\x7d` inclusive — the greedy
first-to-last span, not minimal matching. -/
theorem C7_extract_first_to_last_span (a b c : List Char)
    (ha : '{' ∉ a) (hc : '}' ∉ c) :
    extract_json_from_output (String.mk (a ++ '{' :: (b ++ '}' :: c))) =
      Except.ok (String.mk ('{' :: (b ++ ['}']))) := by
  have hfa : List.findIdx? (· = '{') a = none := by
    rw [List.findIdx?_eq_none_iff]
    intro x hx
    simp only [decide_eq_false_iff_not]
    intro hxx
    exact ha (hxx ▸ hx)
  have hfirst : List.findIdx? (· = '{') (a ++ '{' :: (b ++ '}' :: c)) = some a.length :=
    findIdx?_append_cons _ a _ '{' hfa (by simp)
  have hrev : (a ++ '{' :: (b ++ '}' :: c)).reverse =
      c.reverse ++ '}' :: (b.reverse ++ '{' :: a.reverse) := by
    simp
  have hfc : List.findIdx? (· = '}') c.reverse = none := by
    rw [List.findIdx?_eq_none_iff]
    intro x hx
    simp only [decide_eq_false_iff_not]
    intro hxx
    exact hc (hxx ▸ (List.mem_reverse.mp hx))
  have hlast : lastIdxOf (a ++ '{' :: (b ++ '}' :: c)) '}' =
      some (a.length + b.length + 1) := by
    unfold lastIdxOf
    rw [hrev, findIdx?_append_cons _ _ _ '}' hfc (by simp)]
    simp
    omega
  unfold extract_json_from_output
  rw [hfirst, hlast]
  dsimp only
  rw [if_pos (by omega)]
  have hspan : List.take (a.length + b.length + 1 - a.length + 1)
      (List.drop a.length (a ++ '{' :: (b ++ '}' :: c))) = '{' :: (b ++ ['}']) := by
    rw [List.drop_left]
    have h2 : a.length + b.length + 1 - a.length + 1 = b.length + 2 := by omega
    rw [h2]
    rw [List.take_succ_cons]
    rw [show b ++ '}' :: c = (b ++ ['}']) ++ c by simp]
    rw [List.take_left' (by simp)]
  rw [hspan]

/-- Witness for C7 at the spec's concrete example: extraction on
noise-wrapped output picks the greedy span across both objects. -/
theorem C7_witness :
    extract_json_from_output "noise\x7b\"a\":1\x7d\x7b\"b\":2\x7dtail" =
      Except.ok "\x7b\"a\":1\x7d\x7b\"b\":2\x7d" := by
  have h := C7_extract_first_to_last_span "noise".data
    ("\"a\":1\x7d\x7b\"b\":2").data "tail".data (by decide) (by decide)
  exact h

/-- C10: the JSON-extraction helper is total by construction and returns a
success exactly when the input has a `\x7b` strictly before some `\x7d`
(equivalently, before the last `\x7d`); the two-character input consisting
of an opening and a closing brace succeeds with the full span, while the
reversed pair fails. -/
theorem C10_extract_success_characterization (s : String) :
    ((extract_json_from_output s).isOk = true ↔
      ∃ i j : Nat, i < j ∧ s.data[i]? = some '{' ∧ s.data[j]? = some '}')
    ∧ extract_json_from_output "\x7b\x7d" = Except.ok "\x7b\x7d"
    ∧ (extract_json_from_output "\x7d\x7b").isOk = false := by
  refine ⟨⟨?_, ?_⟩, by rfl, by rfl⟩
  · intro h
    unfold extract_json_from_output at h
    cases h1 : List.findIdx? (· = '{') s.data with
    | none => rw [h1] at h; simp [Except.isOk, Except.toBool] at h
    | some s0 =>
      cases h2 : lastIdxOf s.data '}' with
      | none => rw [h1, h2] at h; simp [Except.isOk, Except.toBool] at h
      | some e0 =>
        rw [h1, h2] at h
        dsimp only at h
        by_cases hgt : e0 > s0
        · obtain ⟨c1, hc1, hp1⟩ := findIdx?_getElem _ _ s0 h1
          have hcc1 : c1 = '{' := by simpa using hp1
          have hc2 := lastIdxOf_getElem _ _ _ h2
          exact ⟨s0, e0, hgt, hcc1 ▸ hc1, hc2⟩
        · rw [if_neg hgt] at h
          simp [Except.isOk, Except.toBool] at h
  · rintro ⟨i, j, hij, hi, hj⟩
    obtain ⟨s0, hs0, hs0le⟩ := findIdx?_le_of_getElem (· = '{') s.data i '{' hi (by simp)
    obtain ⟨e0, he0, he0ge⟩ := lastIdxOf_ge s.data '}' j hj
    unfold extract_json_from_output
    rw [hs0, he0]
    dsimp only
    rw [if_pos (by omega : e0 > s0)]
    simp [Except.isOk, Except.toBool]

/-- C4: when the worker emits one progress event and then a result event
carrying a successful payload, the request executor forwards exactly that
one progress event and returns the decoded successful TaskResult. -/
theorem C4_progress_then_result :
    execute_via_server none none
      [ReadResult.line "\x7b\"type\":\"progress\",\"pct\":10\x7d",
       ReadResult.line "\x7b\"type\":\"result\",\"data\":\x7b\"success\":true,\"message\":\"done\",\"steps\":[],\"user_instruction\":\"x\"\x7d\x7d"] =
      ([Json.obj [("type", Json.str "progress"), ("pct", Json.num 10)]],
       some (Except.ok ⟨true, "done", [], "x"⟩)) := by
  rfl

/-- C9: `ensure_server_alive` establishes the slot postcondition: on success
the slot holds a handle (the polled still-running incumbent or the freshly
launched one); on failure the slot has been cleared to empty so the next
call retries the launch. -/
theorem C9_ensure_alive_postcondition {α : Type} (slot : Option α)
    (poll : α → PollStatus) (launch : Except String α) :
    ((ensure_server_alive slot poll launch).2 = Except.ok () →
      (∃ s0, slot = some s0 ∧ poll s0 = PollStatus.running ∧
        (ensure_server_alive slot poll launch).1 = some s0) ∨
      (∃ ns, launch = Except.ok ns ∧
        (ensure_server_alive slot poll launch).1 = some ns))
    ∧ (∀ e, (ensure_server_alive slot poll launch).2 = Except.error e →
        (ensure_server_alive slot poll launch).1 = none) := by
  cases slot with
  | none =>
    cases launch with
    | ok ns =>
      refine ⟨fun _ => Or.inr ⟨ns, rfl, ?_⟩, fun e h => ?_⟩
      · simp [ensure_server_alive]
      · simp [ensure_server_alive] at h
    | error e2 =>
      refine ⟨fun h => ?_, fun e h => ?_⟩
      · simp [ensure_server_alive] at h
      · simp [ensure_server_alive]
  | some s0 =>
    cases hp : poll s0 with
    | running =>
      refine ⟨fun _ => Or.inl ⟨s0, rfl, hp, ?_⟩, fun e h => ?_⟩
      · simp [ensure_server_alive, hp]
      · simp [ensure_server_alive, hp] at h
    | exited =>
      cases launch with
      | ok ns =>
        refine ⟨fun _ => Or.inr ⟨ns, rfl, ?_⟩, fun e h => ?_⟩
        · simp [ensure_server_alive, hp]
        · simp [ensure_server_alive, hp] at h
      | error e2 =>
        refine ⟨fun h => ?_, fun e h => ?_⟩
        · simp [ensure_server_alive, hp] at h
        · simp [ensure_server_alive, hp]
    | pollErr =>
      cases launch with
      | ok ns =>
        refine ⟨fun _ => Or.inr ⟨ns, rfl, ?_⟩, fun e h => ?_⟩
        · simp [ensure_server_alive, hp]
        · simp [ensure_server_alive, hp] at h
      | error e2 =>
        refine ⟨fun h => ?_, fun e h => ?_⟩
        · simp [ensure_server_alive, hp] at h
        · simp [ensure_server_alive, hp]

/-- Witness for C9: a still-running incumbent is kept on the success side,
and a failed relaunch from an empty slot leaves the slot empty. -/
theorem C9_witness :
    ((∃ s0, (some 5 : Option Nat) = some s0 ∧
        (fun _ : Nat => PollStatus.running) s0 = PollStatus.running ∧
        (ensure_server_alive (some 5) (fun _ : Nat => PollStatus.running)
          (Except.error "x")).1 = some s0) ∨
      (∃ ns, (Except.error "x" : Except String Nat) = Except.ok ns ∧
        (ensure_server_alive (some 5) (fun _ : Nat => PollStatus.running)
          (Except.error "x")).1 = some ns))
    ∧ (ensure_server_alive (none : Option Nat) (fun _ : Nat => PollStatus.running)
        (Except.error "boom")).1 = none := by
  constructor
  · exact (C9_ensure_alive_postcondition (some 5)
      (fun _ : Nat => PollStatus.running) (Except.error "x")).1 rfl
  · exact (C9_ensure_alive_postcondition (none : Option Nat)
      (fun _ : Nat => PollStatus.running) (Except.error "boom")).2 "boom" rfl

/-- C1: when the read loop's read returns zero bytes before a result event,
the persistent executor fails with the crash sentinel, which is distinct
from every other error string produced on that path, and `execute_task`
then clears the stored worker handle and returns the fallback one-shot
executor's result for the same call. -/
theorem C1_crash_sentinel_and_fallback (pre : List ReadResult)
    (os : Except String TaskResult)
    (h : ∀ r ∈ pre, ∃ s, r = ReadResult.line s ∧ stepIsTerminal (lineOutcome s) = false) :
    (execute_via_server none none (pre ++ [ReadResult.eof])).2 =
      some (Except.error "PROCESS_CRASHED")
    ∧ (∀ e, "写入命令失败: " ++ e ≠ "PROCESS_CRASHED")
    ∧ (∀ e, "刷新 stdin 失败: " ++ e ≠ "PROCESS_CRASHED")
    ∧ (∀ e, "读取响应失败: " ++ e ≠ "PROCESS_CRASHED")
    ∧ (∀ e, "解析 TaskResult 失败: " ++ e ≠ "PROCESS_CRASHED")
    ∧ ("result 事件缺少 data 字段" : String) ≠ "PROCESS_CRASHED"
    ∧ execute_task (Except.ok ()) (Except.error "PROCESS_CRASHED") os =
        ⟨os, true, true, true⟩ := by
  refine ⟨runReadLoop_eof pre [] h, ?_, ?_, ?_, ?_, by decide, by rfl⟩
  · intro e
    exact (ne_append_right_of_getElem "PROCESS_CRASHED" "写入命令失败: " 0 'P' '写'
      (by decide) (by decide) (by decide) e).symm
  · intro e
    exact (ne_append_right_of_getElem "PROCESS_CRASHED" "刷新 stdin 失败: " 0 'P' '刷'
      (by decide) (by decide) (by decide) e).symm
  · intro e
    exact (ne_append_right_of_getElem "PROCESS_CRASHED" "读取响应失败: " 0 'P' '读'
      (by decide) (by decide) (by decide) e).symm
  · intro e
    exact (ne_append_right_of_getElem "PROCESS_CRASHED" "解析 TaskResult 失败: " 0 'P' '解'
      (by decide) (by decide) (by decide) e).symm

/-- Witness for C1: one forwarded progress line followed by EOF yields the
crash sentinel, and `execute_task` then returns the fallback's result with
the slot cleared and the restart scheduled. -/
theorem C1_witness :
    (execute_via_server none none
      [ReadResult.line "\x7b\"type\":\"progress\"\x7d", ReadResult.eof]).2 =
      some (Except.error "PROCESS_CRASHED")
    ∧ execute_task (Except.ok ()) (Except.error "PROCESS_CRASHED")
        (Except.ok ⟨false, "fb", [], "q"⟩) =
        ⟨Except.ok ⟨false, "fb", [], "q"⟩, true, true, true⟩ := by
  have h := C1_crash_sentinel_and_fallback
    [ReadResult.line "\x7b\"type\":\"progress\"\x7d"]
    (Except.ok ⟨false, "fb", [], "q"⟩)
    (by
      intro r hr
      rcases List.mem_cons.mp hr with rfl | hr2
      · exact ⟨"\x7b\"type\":\"progress\"\x7d", rfl, rfl⟩
      · exact absurd hr2 (List.not_mem_nil r))
  exact ⟨h.1, h.2.2.2.2.2.2⟩

/-- C2 (amended): deferred background recovery is scheduled whenever the
persistent request path fails, with the crash classification or any other
error alike; in each case the handle is cleared and the call's result comes
from the fallback executor rather than surfacing the error; only an
ensure-alive failure skips the deferred restart (the next call
independently retries ensure-alive). -/
theorem C2_restart_on_every_server_error (e : String) (os : Except String TaskResult) :
    execute_task (Except.ok ()) (Except.error e) os = ⟨os, true, true, true⟩
    ∧ (∀ ee v, execute_task (Except.error ee) v os = ⟨os, true, false, true⟩) := by
  constructor
  · by_cases h : e = "PROCESS_CRASHED" <;> simp [execute_task, h]
  · intro ee v
    rfl

/-- Counterexample for C2: a non-crash transport error (a result event with
no data field) still schedules the deferred background restart, and the
error does not surface to the immediate caller — the fallback's result is
returned instead. -/
theorem C2_counterexample :
    (execute_via_server none none [ReadResult.line "\x7b\"type\":\"result\"\x7d"]).2 =
      some (Except.error "result 事件缺少 data 字段")
    ∧ "result 事件缺少 data 字段" ≠ "PROCESS_CRASHED"
    ∧ (execute_task (Except.ok ()) (Except.error "result 事件缺少 data 字段")
        (Except.ok ⟨true, "m", [], "i"⟩)).restartScheduled = true
    ∧ (execute_task (Except.ok ()) (Except.error "result 事件缺少 data 字段")
        (Except.ok ⟨true, "m", [], "i"⟩)).result = Except.ok ⟨true, "m", [], "i"⟩ := by
  exact ⟨by rfl, by decide, by rfl, by rfl⟩

/-- C3 (amended): a line that is not valid JSON never terminates the read
loop and is never forwarded; a line that is valid JSON without a
recognizable type tag also never terminates the loop, but the persistent
read loop does forward it to the progress channel (it falls into the
catch-all progress arm), while the one-shot executor does not forward it. -/
theorem C3_invalid_and_untagged_lines (s : String) :
    (parseJson (trimStr s) = none → lineOutcome s = LoopStep.skip)
    ∧ (∀ j, parseJson (trimStr s) = some j → jsonTypeTag j = "" →
        lineOutcome s = LoopStep.progress j)
    ∧ (parseJson s = none → oneshotForward s = none)
    ∧ (∀ j, parseJson s = some j → jsonTypeTag j = "" → oneshotForward s = none) := by
  refine ⟨?_, ?_, ?_, ?_⟩
  · intro hp
    by_cases ht : trimStr s = ""
    · simp [lineOutcome, ht]
    · simp [lineOutcome, ht, hp]
  · intro j hp hty
    by_cases ht : trimStr s = ""
    · rw [ht] at hp
      exact Option.noConfusion hp
    · simp [lineOutcome, ht, hp, hty]
  · intro hp
    simp [oneshotForward, hp]
  · intro j hp hty
    simp [oneshotForward, hp, hty]

/-- Counterexample for C3: the valid JSON line with a single field and no
type tag is forwarded to the caller's progress channel by the persistent
read loop, contradicting the claim that it never appears as progress. -/
theorem C3_counterexample :
    runReadLoop
      [ReadResult.line "\x7b\"a\":1\x7d",
       ReadResult.line "\x7b\"type\":\"result\",\"data\":\x7b\"success\":true,\"message\":\"done\",\"steps\":[],\"user_instruction\":\"x\"\x7d\x7d"]
      [] =
      ([Json.obj [("a", Json.num 1)]],
       some (Except.ok ⟨true, "done", [], "x"⟩)) := by
  rfl

/-- Witness for C3: a non-JSON line is skipped by the read loop and not
forwarded by the one-shot path; the untagged JSON object is forwarded as
progress by the read loop while not forwarded by the one-shot path. -/
theorem C3_witness :
    lineOutcome "not json" = LoopStep.skip
    ∧ lineOutcome "\x7b\"a\":1\x7d" = LoopStep.progress (Json.obj [("a", Json.num 1)])
    ∧ oneshotForward "not json" = none
    ∧ oneshotForward "\x7b\"a\":1\x7d" = none := by
  exact ⟨(C3_invalid_and_untagged_lines "not json").1 (by rfl),
         (C3_invalid_and_untagged_lines "\x7b\"a\":1\x7d").2.1 _ (by rfl) (by rfl),
         (C3_invalid_and_untagged_lines "not json").2.2.1 (by rfl),
         (C3_invalid_and_untagged_lines "\x7b\"a\":1\x7d").2.2.2 _ (by rfl) (by rfl)⟩

/-- C5: the 30-second readiness timeout fails the launch with the
timeout-specific error; an explicit error event before ready fails with
that event's message wrapped as an initialization failure; zero bytes read
fails with the exited-before-ready message; and the timeout error differs
from every initialization-failure wrapping, hence from both other cases. -/
theorem C5_readiness_error_taxonomy (reads : List ReadResult) (m : String) :
    launch_ready_result true reads = some (Except.error "Python 服务启动超时(30s)")
    ∧ (wait_for_ready reads = some (Except.error m) →
        launch_ready_result false reads =
          some (Except.error ("Python 服务初始化失败: " ++ m)))
    ∧ (∀ s j rest, parseJson (trimStr s) = some j → jsonTypeTag j = "error" →
        jsonGet j "message" = some (Json.str m) →
        wait_for_ready (ReadResult.line s :: rest) = some (Except.error m))
    ∧ (∀ rest, wait_for_ready (ReadResult.eof :: rest) =
        some (Except.error "Python 服务启动后立即退出"))
    ∧ "Python 服务启动超时(30s)" ≠ "Python 服务初始化失败: " ++ m := by
  refine ⟨by rfl, ?_, ?_, fun rest => rfl, ?_⟩
  · intro h
    simp [launch_ready_result, h]
  · intro s j rest hp hty hmsg
    simp [wait_for_ready, hp, hty, hmsg]
  · exact ne_append_right_of_getElem _ _ 9 '启' '初' (by decide) (by decide) (by decide) m

/-- Witness for C5 with a concrete error event, a concrete EOF, and the
concrete message boom. -/
theorem C5_witness :
    launch_ready_result true
      [ReadResult.line "\x7b\"type\":\"error\",\"message\":\"boom\"\x7d"] =
      some (Except.error "Python 服务启动超时(30s)")
    ∧ launch_ready_result false
        [ReadResult.line "\x7b\"type\":\"error\",\"message\":\"boom\"\x7d"] =
        some (Except.error ("Python 服务初始化失败: " ++ "boom"))
    ∧ wait_for_ready [ReadResult.line "\x7b\"type\":\"error\",\"message\":\"boom\"\x7d"] =
        some (Except.error "boom")
    ∧ wait_for_ready [ReadResult.eof] =
        some (Except.error "Python 服务启动后立即退出")
    ∧ "Python 服务启动超时(30s)" ≠ "Python 服务初始化失败: " ++ "boom" := by
  have h := C5_readiness_error_taxonomy
    [ReadResult.line "\x7b\"type\":\"error\",\"message\":\"boom\"\x7d"] "boom"
  exact ⟨h.1, h.2.1 (by rfl),
         h.2.2.1 "\x7b\"type\":\"error\",\"message\":\"boom\"\x7d"
           (Json.obj [("type", Json.str "error"), ("message", Json.str "boom")])
           [] (by rfl) (by rfl) (by rfl),
         h.2.2.2.1 [], h.2.2.2.2⟩

/-- C6: in the fallback one-shot executor the candidate final result is the
TaskResult parsed from the last directly-parsing line; only when no line
parsed directly does the executor extract the first-to-last brace span of
the joined output and parse that, and when that also fails the call errors
with a diagnostic carrying the raw output (either the extraction error or
the parse error, both of which embed the joined stdout). -/
theorem C6_oneshot_result_selection :
    (∀ pre post l r, taskResultFromStr l = some r →
        (∀ x ∈ post, taskResultFromStr x = none) →
        execute_oneshot (pre ++ l :: post) = Except.ok r)
    ∧ (∀ lines js r, (∀ x ∈ lines, taskResultFromStr x = none) →
        extract_json_from_output (String.intercalate "\n" lines) = Except.ok js →
        taskResultFromStrE js = Except.ok r →
        execute_oneshot lines = Except.ok r)
    ∧ (∀ lines, (∀ x ∈ lines, taskResultFromStr x = none) →
        (extract_json_from_output (String.intercalate "\n" lines)).isOk = false →
        execute_oneshot lines =
          Except.error ("未找到有效的 JSON 输出。输出内容: " ++ String.intercalate "\n" lines))
    ∧ (∀ lines js e, (∀ x ∈ lines, taskResultFromStr x = none) →
        extract_json_from_output (String.intercalate "\n" lines) = Except.ok js →
        taskResultFromStrE js = Except.error e →
        execute_oneshot lines =
          Except.error ("解析 JSON 失败: " ++ e ++ "。原始输出: " ++ String.intercalate "\n" lines)) := by
  refine ⟨?_, ?_, ?_, ?_⟩
  · intro pre post l r hl hpost
    unfold execute_oneshot
    rw [oneshotFinalCandidate_append_some pre post l r hl hpost]
  · intro lines js r hnone hex hjs
    unfold execute_oneshot
    simp [oneshotFinalCandidate_none lines hnone, hex, hjs]
  · intro lines hnone hfail
    unfold execute_oneshot
    simp [oneshotFinalCandidate_none lines hnone, extract_error_eq _ hfail]
  · intro lines js e hnone hex he
    unfold execute_oneshot
    simp [oneshotFinalCandidate_none lines hnone, hex, he]

/-- Witness for C6: all four selection branches at concrete stdout
transcripts. -/
theorem C6_witness :
    execute_oneshot
      ["x", "\x7b\"success\":true,\"message\":\"done\",\"steps\":[],\"user_instruction\":\"x\"\x7d"] =
      Except.ok ⟨true, "done", [], "x"⟩
    ∧ execute_oneshot
        ["junk \x7b\"success\":true,\"message\":\"m\",",
         "\"steps\":[],\"user_instruction\":\"u\"\x7d trail"] =
        Except.ok ⟨true, "m", [], "u"⟩
    ∧ execute_oneshot ["no", "json here"] =
        Except.error ("未找到有效的 JSON 输出。输出内容: " ++
          String.intercalate "\n" ["no", "json here"])
    ∧ execute_oneshot ["\x7b\"success\":true\x7d"] =
        Except.error ("解析 JSON 失败: " ++ "invalid fields for struct TaskResult" ++
          "。原始输出: " ++ String.intercalate "\n" ["\x7b\"success\":true\x7d"]) := by
  refine ⟨?_, ?_, ?_, ?_⟩
  · exact C6_oneshot_result_selection.1 ["x"] []
      "\x7b\"success\":true,\"message\":\"done\",\"steps\":[],\"user_instruction\":\"x\"\x7d"
      ⟨true, "done", [], "x"⟩ (by rfl)
      (fun x hx => absurd hx (List.not_mem_nil x))
  · exact C6_oneshot_result_selection.2.1
      ["junk \x7b\"success\":true,\"message\":\"m\",",
       "\"steps\":[],\"user_instruction\":\"u\"\x7d trail"]
      "\x7b\"success\":true,\"message\":\"m\",\n\"steps\":[],\"user_instruction\":\"u\"\x7d"
      ⟨true, "m", [], "u"⟩
      (by
        intro x hx
        simp only [List.mem_cons, List.not_mem_nil, or_false] at hx
        rcases hx with rfl | rfl <;> rfl)
      (by rfl) (by rfl)
  · exact C6_oneshot_result_selection.2.2.1 ["no", "json here"]
      (by
        intro x hx
        simp only [List.mem_cons, List.not_mem_nil, or_false] at hx
        rcases hx with rfl | rfl <;> rfl)
      (by rfl)
  · exact C6_oneshot_result_selection.2.2.2 ["\x7b\"success\":true\x7d"]
      "\x7b\"success\":true\x7d" "invalid fields for struct TaskResult"
      (by
        intro x hx
        simp only [List.mem_cons, List.not_mem_nil, or_false] at hx
        subst hx
        rfl)
      (by rfl) (by rfl)

/-- C8 (amended): serializing a TaskResult to the JSON wire format and
deserializing it back is the identity for every TaskResult whose steps
carry no explicit JSON-null optional payload; the excluded case collapses
Option.some of JSON null to Option.none, as the counterexample shows. -/
theorem C8_roundtrip_no_null_payload (t : TaskResult)
    (h : ∀ s ∈ t.steps, s.result ≠ some Json.null) :
    taskResultFromJson (taskResultToJson t) = Except.ok t := by
  obtain ⟨b, m, steps, u⟩ := t
  have hsteps := stepResults_roundtrip steps (by simpa using h)
  calc taskResultFromJson (taskResultToJson ⟨b, m, steps, u⟩)
      = (match stepResultsFromJson (steps.map stepResultToJson) with
         | Except.ok ss => Except.ok (⟨b, m, ss, u⟩ : TaskResult)
         | Except.error e => Except.error e) := rfl
    _ = Except.ok ⟨b, m, steps, u⟩ := by rw [hsteps]

/-- Counterexample for C8: a step whose optional result is an explicit JSON
null does not survive the round-trip — it deserializes to the absent
optional, so the decoded value differs from the original. -/
theorem C8_counterexample :
    taskResultFromJson (taskResultToJson
      ⟨true, "m", [⟨Json.null, some Json.null⟩], "u"⟩) =
      Except.ok ⟨true, "m", [⟨Json.null, none⟩], "u"⟩
    ∧ (⟨true, "m", [⟨Json.null, none⟩], "u"⟩ : TaskResult) ≠
        ⟨true, "m", [⟨Json.null, some Json.null⟩], "u"⟩ := by
  refine ⟨by rfl, ?_⟩
  intro h
  simp [TaskResult.mk.injEq, StepResult.mk.injEq] at h

/-- Witness for C8: a two-step TaskResult with an absent optional and a
non-null present optional round-trips unchanged. -/
theorem C8_witness :
    taskResultFromJson (taskResultToJson
      ⟨false, "w", [⟨Json.str "s1", none⟩, ⟨Json.num 2, some (Json.bool true)⟩], "inst"⟩) =
      Except.ok ⟨false, "w",
        [⟨Json.str "s1", none⟩, ⟨Json.num 2, some (Json.bool true)⟩], "inst"⟩ := by
  exact C8_roundtrip_no_null_payload _
    (by
      intro s hs
      simp only [List.mem_cons, List.not_mem_nil, or_false] at hs
      rcases hs with rfl | rfl <;> simp)
